import Mathlib

/-!
# Mini-Cover: layered canvas rendering pipeline, shallow embedding

A shallow embedding of the core rendering script of the Mini-Cover
repository (the canvas rendering module, its configuration module, and the
auto-generation API's export entry point), together with theorems settling
the specification claims about it.

Conventions of the embedding:
* Canvas geometry is carried out over `ℚ` (the JavaScript numbers involved
  in the claims are exact decimal/rational computations: scales, centering
  offsets, line positions).
* Colors and image URLs are opaque `String`s; image references are
  `Option String` (JavaScript `null` becomes `none`).
* DOM side effects (actually painting pixels) are reified: each draw
  routine returns a description of the draw commands it issues, and the
  batching scheduler returns the multiset of redraws and compositor
  passes it performs.
-/

namespace MiniCover

/-- From the config module: the default text and watermark.  The default
font family comes from a build-time environment variable and is modelled
as an opaque constant string. -/
structure DefaultConfig where
  text : String
  watermark : String
  fontFamily : String

def defaultConfig : DefaultConfig :=
  { text := "梦爱吃鱼"
    watermark := "@梦爱吃鱼"
    fontFamily := "HarmonyOS Sans SC" }

/-- The reactive `state` object of the rendering script: every mutable
visual parameter, one field per JavaScript property. -/
structure RenderState where
  bgImageUrl : Option String
  squareImageUrl : Option String
  bgColor : String
  textColor : String
  watermarkColor : String
  iconColor : String
  rotation : ℚ
  shadowColor : String
  shadowBlur : ℚ
  shadowOffsetX : ℚ
  shadowOffsetY : ℚ
  shadowStrength : ℚ
  watermark : String
  textSize : ℚ
  lineHeight : ℚ
  text3D : ℚ
  squareSize : ℚ
  text : String
  bgBlur : ℚ
  iconBgSize : ℚ
  selectedFont : String
  isFontMenuOpen : Bool
  hasMultipleLines : Bool
deriving DecidableEq

/-- The initial value of the reactive state. -/
def initialState : RenderState :=
  { bgImageUrl := none
    squareImageUrl := none
    bgColor := "#ffffff"
    textColor := "#eeeeee"
    watermarkColor := "#dddddd"
    iconColor := "#eeeeee"
    rotation := 0
    shadowColor := "#646464"
    shadowBlur := 120
    shadowOffsetX := 1
    shadowOffsetY := 1
    shadowStrength := 60
    watermark := defaultConfig.watermark
    textSize := 200
    lineHeight := 1
    text3D := 0
    squareSize := 300
    text := defaultConfig.text
    bgBlur := 3
    iconBgSize := 0
    selectedFont := defaultConfig.fontFamily
    isFontMenuOpen := false
    hasMultipleLines := false }

/-- All four layer canvases are created with these dimensions. -/
def canvasWidth : ℚ := 1000

def canvasHeight : ℚ := 500

/-- `updateText(event)`: `state.text = event.target.value || defaultConfig.text`
(the JavaScript `||` falls through to the default exactly when the value is
the empty string, the only falsy string), then
`state.hasMultipleLines = state.text.includes('\n')`.  The trailing
`drawText()` call is a draw side effect, modelled separately. -/
def updateText (value : String) (s : RenderState) : RenderState :=
  let t := if value = "" then defaultConfig.text else value
  { s with text := t, hasMultipleLines := t.contains '\n' }

/-- `updateShadowStrength(event)`: reads `state.shadowStrength` (never the
event), sets `state.shadowBlur = strength * 2` and zeroes both shadow
offsets.  The event parameter is kept to mirror the JavaScript signature. -/
def updateShadowStrength (_event : String) (s : RenderState) : RenderState :=
  { s with
    shadowBlur := s.shadowStrength * 2
    shadowOffsetX := 0
    shadowOffsetY := 0 }

/-- `updateBackgroundColor(event)`: sets the color and clears the image
reference, making the color the active background source again. -/
def updateBackgroundColor (value : String) (s : RenderState) : RenderState :=
  { s with bgColor := value, bgImageUrl := none }

/-! ## Image decode cache (`LRUCache`) -/

/-- The script's `LRUCache`: a JavaScript `Map` in insertion order (oldest
entry first), with a fixed `maxSize`.  Distinct `Map` keys are unique, so
the map is a key-value list whose keys occur at most once. -/
structure LRUCache (κ α : Type) where
  maxSize : ℕ
  cache : List (κ × α)
deriving DecidableEq

/-- `get(key)`: on a hit, delete the entry and re-insert it at the end
(refresh-on-read promotion), returning the value; on a miss return `null`.
The promoted cache is returned alongside the result. -/
def LRUCache.get {κ α : Type} [DecidableEq κ] (c : LRUCache κ α) (key : κ) :
    Option α × LRUCache κ α :=
  match c.cache.find? (fun p => p.1 = key) with
  | some p =>
      (some p.2, { c with cache := c.cache.filter (fun q => q.1 ≠ key) ++ [(key, p.2)] })
  | none => (none, c)

/-- `set(key, value)`: if the key is present, delete it first (re-insert at
the end); otherwise, if the cache is full, delete the first (oldest) key;
then insert at the end.  On an empty full cache (`maxSize = 0`) the
JavaScript `delete(undefined)` is a no-op, mirrored by the `[]` branch. -/
def LRUCache.set {κ α : Type} [DecidableEq κ] (c : LRUCache κ α) (key : κ) (value : α) :
    LRUCache κ α :=
  if c.cache.any (fun p => p.1 = key) then
    { c with cache := c.cache.filter (fun q => q.1 ≠ key) ++ [(key, value)] }
  else if c.maxSize ≤ c.cache.length then
    match c.cache with
    | [] => { c with cache := [(key, value)] }
    | _ :: rest => { c with cache := rest ++ [(key, value)] }
  else
    { c with cache := c.cache ++ [(key, value)] }

/-- `clear()`. -/
def LRUCache.clear {κ α : Type} (c : LRUCache κ α) : LRUCache κ α :=
  { c with cache := [] }

/-! ## Background layer (`drawBackground`) -/

/-- The observable draw command `drawBackground` issues after clearing:
either the decoded image placed at `(x, y)` with dimensions
`width × height` under a blur filter, or a fill of the whole surface with
a color. -/
inductive BackgroundDraw where
  | image (x y width height blur : ℚ)
  | fill (color : String)
deriving DecidableEq

/-- `drawBackground()`: with an image source, scale by
`max(canvasWidth / imgWidth, canvasHeight / imgHeight)` and center; with no
image source, fill the whole canvas with `state.bgColor`.  The image's
decoded dimensions are passed explicitly (they arrive in the `onload`
callback in the script). -/
def drawBackground (s : RenderState) (imgWidth imgHeight : ℚ) : BackgroundDraw :=
  match s.bgImageUrl with
  | some _ =>
      let scaleX := canvasWidth / imgWidth
      let scaleY := canvasHeight / imgHeight
      let scale := max scaleX scaleY
      let width := imgWidth * scale
      let height := imgHeight * scale
      let x := (canvasWidth - width) / 2
      let y := (canvasHeight - height) / 2
      BackgroundDraw.image x y width height s.bgBlur
  | none => BackgroundDraw.fill s.bgColor

/-! ## Icon layer (`drawSquareImage`), scaling step -/

/-- The fixed border width of the icon box. -/
def borderWidth : ℚ := 20

/-- The scaled size and centering offsets `drawSquareImage` computes for
the source image inside the inner `(squareSize - 2 * borderWidth)` square;
the image is then drawn at `(borderWidth + offsetX, borderWidth + offsetY)`
in the working buffer. -/
structure IconPlacement where
  scaledWidth : ℚ
  scaledHeight : ℚ
  offsetX : ℚ
  offsetY : ℚ
deriving DecidableEq

/-- The `// Calculate scale` block of `drawSquareImage`, verbatim:
`size = squareSize - 2 * borderWidth`, the image's aspect ratio is
compared against `size / size`, the larger-aspect branch takes the full
width, the other branch the full height, and the remainder is split
evenly into offsets. -/
def drawSquareImageScale (s : RenderState) (imgWidth imgHeight : ℚ) : IconPlacement :=
  let totalSize := s.squareSize
  let size := totalSize - 2 * borderWidth
  let imgAspectRatio := imgWidth / imgHeight
  let containerAspectRatio := size / size
  let scaledWidth := if imgAspectRatio > containerAspectRatio then size else size * imgAspectRatio
  let scaledHeight := if imgAspectRatio > containerAspectRatio then size / imgAspectRatio else size
  { scaledWidth := scaledWidth
    scaledHeight := scaledHeight
    offsetX := (size - scaledWidth) / 2
    offsetY := (size - scaledHeight) / 2 }

/-! ## Text layer (`drawText`) -/

/-- One `fillText` command of `drawText`: the line's content and the point
it is drawn at (centered alignment, middle baseline). -/
structure TextLine where
  content : String
  x : ℚ
  y : ℚ
deriving DecidableEq

/-- `text.split('\n')`: splitting a string on the line-break character,
embedded as the corresponding split of the character list. -/
def splitLines (t : String) : List String := (t.toList.splitOn '\n').map String.mk

/-- The multi-line layout of `drawText`: split on line breaks, compute
`lineHeight = textSize * lineHeight`, start at
`(canvasHeight - lineHeight * lines.length) / 2 + lineHeight / 2`, and draw
line `i` at `startY + i * lineHeight`, horizontally centered. -/
def drawText (s : RenderState) : List TextLine :=
  let lines := splitLines s.text
  let lineHeight := s.textSize * s.lineHeight
  let totalHeight := lineHeight * (lines.length : ℚ)
  let startY := (canvasHeight - totalHeight) / 2 + lineHeight / 2
  lines.enum.map (fun p =>
    { content := p.2, x := canvasWidth / 2, y := startY + (p.1 : ℚ) * lineHeight })

/-! ## Compositor (`composeCanvases`) -/

/-- A color with premultiplied-alpha components. -/
structure Color where
  r : ℚ
  g : ℚ
  b : ℚ
  a : ℚ
deriving DecidableEq

/-- The fully transparent pixel a cleared canvas holds. -/
def Color.transparent : Color := ⟨0, 0, 0, 0⟩

/-- Source-over alpha compositing (premultiplied), the operation
`ctx.drawImage` performs per pixel on a canvas with `alpha: true`. -/
def Color.over (src dst : Color) : Color :=
  { r := src.r + dst.r * (1 - src.a)
    g := src.g + dst.g * (1 - src.a)
    b := src.b + dst.b * (1 - src.a)
    a := src.a + dst.a * (1 - src.a) }

/-- A raster surface: pixel coordinates to color. -/
def Surface : Type := (ℚ × ℚ) → Color

/-- The four per-layer canvases of the script. -/
structure LayerCanvases where
  bgCanvas : Surface
  textCanvas : Surface
  squareCanvas : Surface
  watermarkCanvas : Surface

/-- The four layers. -/
inductive Layer where
  | background
  | text
  | watermark
  | square
deriving DecidableEq

/-- Read one layer's canvas. -/
def LayerCanvases.layerOf (c : LayerCanvases) : Layer → Surface
  | .background => c.bgCanvas
  | .text => c.textCanvas
  | .watermark => c.watermarkCanvas
  | .square => c.squareCanvas

/-- One layer redraw: each draw routine writes only its own canvas, fully
replacing it (every routine starts with `clearRect` over the whole
canvas).  `render` gives the content the routine produces from the current
state. -/
def redrawLayer (render : Layer → Surface) (l : Layer) (c : LayerCanvases) : LayerCanvases :=
  match l with
  | .background => { c with bgCanvas := render .background }
  | .text => { c with textCanvas := render .text }
  | .watermark => { c with watermarkCanvas := render .watermark }
  | .square => { c with squareCanvas := render .square }

/-- Issue a sequence of layer redraws in the given order. -/
def applyRedraws (render : Layer → Surface) (order : List Layer) (c : LayerCanvases) :
    LayerCanvases :=
  order.foldl (fun acc l => redrawLayer render l acc) c

/-- `composeCanvases()`: a no-op when the output context has not been
acquired (`if (!ctx) return`); otherwise clear the output canvas and draw
the four layer canvases onto it, in source order background, text, square
(icon), watermark. -/
def composeCanvases (ctx : Option Unit) (l : LayerCanvases) : Option Surface :=
  match ctx with
  | none => none
  | some _ => some (fun p =>
      Color.over (l.watermarkCanvas p)
        (Color.over (l.squareCanvas p)
          (Color.over (l.textCanvas p)
            (Color.over (l.bgCanvas p) Color.transparent))))

/-- The specification's compositing order, stated in its own words:
alpha-stack the layers Background, then Text, then Icon, then Watermark
over a cleared (transparent) output. -/
def specAlphaStack (l : LayerCanvases) : Surface :=
  fun p =>
    [l.bgCanvas p, l.textCanvas p, l.squareCanvas p, l.watermarkCanvas p].foldl
      (fun acc c => Color.over c acc) Color.transparent

/-! ## Exporter -/

/-- An encoded image blob. -/
structure Blob where
  size : ℕ
  mimeType : String
deriving DecidableEq

/-- The object `coverAPI.export` resolves with. -/
structure ExportResult where
  blob : Blob
  url : String
  size : ℕ
  mimeType : String
deriving DecidableEq

/-- `URL.createObjectURL`, modelled as an injective naming of the blob. -/
def objectURL (b : Blob) : String := "blob:" ++ toString b.size ++ b.mimeType

/-- `coverAPI.export(format, quality)` from the auto-generate API: looks up
the preview canvas and throws `Error('Canvas not found')` when it is
absent; otherwise serializes, resolving with the blob record or rejecting
with `Error('Export failed')` when serialization yields no blob.
`blobResult` models the outcome `canvas.toBlob` passes to its callback. -/
def coverAPI_export (canvasPreview : Option Unit) (blobResult : Option Blob)
    (_format : String) (_quality : ℚ) : Except String ExportResult :=
  match canvasPreview with
  | none => Except.error "Canvas not found"
  | some _ =>
      match blobResult with
      | some blob =>
          Except.ok { blob := blob, url := objectURL blob, size := blob.size
                      mimeType := blob.mimeType }
      | none => Except.error "Export failed"

/-- The triggered download `saveWebp` performs.  Contrast with
`coverAPI_export`: when the module-level `canvas` is `null`, `saveWebp`
returns silently (`if (!canvas) return`), producing no download and no
error. -/
def saveWebp (canvas : Option Unit) (timestamp : ℕ) : Option String :=
  match canvas with
  | none => none
  | some _ => some ("cover-" ++ toString timestamp ++ ".webp")

/-! ## Update scheduler (`scheduleUpdate` / `processBatchUpdates`)

The queue is a JavaScript `Set` of freshly allocated `{type, event}`
objects; distinct `scheduleUpdate` calls add distinct objects, so the set
behaves as an insertion-ordered list that keeps every enqueued event.  We
track, for a flush of one queue, how many times each layer's draw routine
runs and how many times `composeCanvases` runs.  The image-source kinds
(`bg`, `square`) draw inside an asynchronous decode callback, so their
updaters contribute no synchronous draw; every other updater's draw calls
run synchronously during the flush itself.  The counts below assume a
state with no image sources set, so every draw routine that runs performs
its synchronous path and ends with one `composeCanvases()` call. -/

/-- The event kinds `processBatchUpdates` and the `updateFunctions` table
dispatch on. -/
inductive UpdateKind where
  | bg
  | bgColor
  | text
  | textSize
  | textColor
  | lineHeight
  | text3D
  | watermark
  | watermarkColor
  | square
  | rotation
  | squareSize
  | shadowStrength
  | shadowColor
  | iconColor
  | iconBgSize
  | font
  | bgBlur
deriving DecidableEq

/-- The layer draw calls the kind's per-field updater itself performs
synchronously during the flush (for a state with no image sources):
`updateBackgroundColor` calls `drawBackground()`, `updateTextColor` calls
`drawText()`, and so on; the `lineHeight` entry of `updateFunctions` is a
stub `() => {}`, and the `bg` / `square` updaters defer their draw to the
decode callback. -/
def updaterDraws : UpdateKind → List Layer
  | .bg => []
  | .bgColor => [.background]
  | .text => [.text]
  | .textSize => [.text]
  | .textColor => [.text]
  | .lineHeight => []
  | .text3D => [.text]
  | .watermark => [.watermark]
  | .watermarkColor => [.watermark]
  | .square => []
  | .rotation => [.square]
  | .squareSize => [.square]
  | .shadowStrength => [.square]
  | .shadowColor => [.square]
  | .iconColor => [.square]
  | .iconBgSize => [.square]
  | .font => [.text, .watermark]
  | .bgBlur => [.background]

/-- The `switch` in `processBatchUpdates`: which `needsRedraw` flag each
kind sets.  `iconColor`, `iconBgSize`, `font` and `bgBlur` fall through to
the `default` branch, which sets no flag. -/
def kindFlag : UpdateKind → Option Layer
  | .bg => some .background
  | .bgColor => some .background
  | .text => some .text
  | .textSize => some .text
  | .textColor => some .text
  | .lineHeight => some .text
  | .text3D => some .text
  | .watermark => some .watermark
  | .watermarkColor => some .watermark
  | .square => some .square
  | .rotation => some .square
  | .squareSize => some .square
  | .shadowStrength => some .square
  | .shadowColor => some .square
  | .iconColor => none
  | .iconBgSize => none
  | .font => none
  | .bgBlur => none

/-- How many times each draw routine and the compositor ran. -/
structure DrawCounts where
  background : ℕ
  text : ℕ
  watermark : ℕ
  square : ℕ
  compose : ℕ
deriving DecidableEq

/-- One invocation of a layer's draw routine: it redraws its layer and
(its synchronous path) ends with one `composeCanvases()` call. -/
def recordDraw (c : DrawCounts) : Layer → DrawCounts
  | .background => { c with background := c.background + 1, compose := c.compose + 1 }
  | .text => { c with text := c.text + 1, compose := c.compose + 1 }
  | .watermark => { c with watermark := c.watermark + 1, compose := c.compose + 1 }
  | .square => { c with square := c.square + 1, compose := c.compose + 1 }

/-- The `needsRedraw` record of `processBatchUpdates`. -/
structure RedrawFlags where
  background : Bool
  text : Bool
  watermark : Bool
  square : Bool
deriving DecidableEq

/-- Set the dirty flag selected by the kind (if any). -/
def setFlag (f : RedrawFlags) : Option Layer → RedrawFlags
  | none => f
  | some .background => { f with background := true }
  | some .text => { f with text := true }
  | some .watermark => { f with watermark := true }
  | some .square => { f with square := true }

/-- Processing one queued event inside the `for` loop of
`processBatchUpdates`: run the per-field updater (whose draw calls are
counted) and set the kind's dirty flag. -/
def batchStep (acc : RedrawFlags × DrawCounts) (k : UpdateKind) : RedrawFlags × DrawCounts :=
  (setFlag acc.1 (kindFlag k), (updaterDraws k).foldl recordDraw acc.2)

/-- `processBatchUpdates()` over a drained queue: loop over the events
(each applying its updater and marking its flag), then run one batched
redraw per set flag, then one final `composeCanvases()`. -/
def processBatchUpdates (queue : List UpdateKind) : DrawCounts :=
  let acc := queue.foldl batchStep (⟨false, false, false, false⟩, ⟨0, 0, 0, 0, 0⟩)
  let c1 := if acc.1.background then recordDraw acc.2 .background else acc.2
  let c2 := if acc.1.text then recordDraw c1 .text else c1
  let c3 := if acc.1.watermark then recordDraw c2 .watermark else c2
  let c4 := if acc.1.square then recordDraw c3 .square else c3
  { c4 with compose := c4.compose + 1 }

/-! ## Theorems -/

/-- **C9.** `updateText` sets `state.text` to the event's value when that
value is non-empty and to the default title text when it is empty; the
resulting text is never the empty string, and `state.hasMultipleLines`
records whether the resulting text contains a line break. -/
theorem C9_updateText_default_fallback (value : String) (s : RenderState) :
    (updateText value s).text = (if value = "" then defaultConfig.text else value)
      ∧ (updateText value s).text ≠ ""
      ∧ (updateText value s).hasMultipleLines = (updateText value s).text.contains '\n' := by
  refine ⟨rfl, ?_, rfl⟩
  by_cases hv : value = "" <;> simp [updateText, hv, defaultConfig]

/-- **C10.** `updateShadowStrength` ignores its event argument, sets
`shadowBlur` to twice the current `shadowStrength`, zeroes both shadow
offsets, and leaves every other state field (including `shadowStrength`
itself) unchanged. -/
theorem C10_updateShadowStrength_frame (e1 e2 : String) (s : RenderState) :
    updateShadowStrength e1 s = updateShadowStrength e2 s
      ∧ (updateShadowStrength e1 s).shadowBlur = 2 * s.shadowStrength
      ∧ (updateShadowStrength e1 s).shadowOffsetX = 0
      ∧ (updateShadowStrength e1 s).shadowOffsetY = 0
      ∧ (updateShadowStrength e1 s).shadowStrength = s.shadowStrength
      ∧ (updateShadowStrength e1 s).bgImageUrl = s.bgImageUrl
      ∧ (updateShadowStrength e1 s).squareImageUrl = s.squareImageUrl
      ∧ (updateShadowStrength e1 s).bgColor = s.bgColor
      ∧ (updateShadowStrength e1 s).textColor = s.textColor
      ∧ (updateShadowStrength e1 s).watermarkColor = s.watermarkColor
      ∧ (updateShadowStrength e1 s).iconColor = s.iconColor
      ∧ (updateShadowStrength e1 s).rotation = s.rotation
      ∧ (updateShadowStrength e1 s).shadowColor = s.shadowColor
      ∧ (updateShadowStrength e1 s).watermark = s.watermark
      ∧ (updateShadowStrength e1 s).textSize = s.textSize
      ∧ (updateShadowStrength e1 s).lineHeight = s.lineHeight
      ∧ (updateShadowStrength e1 s).text3D = s.text3D
      ∧ (updateShadowStrength e1 s).squareSize = s.squareSize
      ∧ (updateShadowStrength e1 s).text = s.text
      ∧ (updateShadowStrength e1 s).bgBlur = s.bgBlur
      ∧ (updateShadowStrength e1 s).iconBgSize = s.iconBgSize
      ∧ (updateShadowStrength e1 s).selectedFont = s.selectedFont
      ∧ (updateShadowStrength e1 s).isFontMenuOpen = s.isFontMenuOpen
      ∧ (updateShadowStrength e1 s).hasMultipleLines = s.hasMultipleLines := by
  refine ⟨rfl, ?_, rfl, rfl, rfl, rfl, rfl, rfl, rfl, rfl, rfl, rfl, rfl, rfl, rfl, rfl,
    rfl, rfl, rfl, rfl, rfl, rfl, rfl, rfl⟩
  show s.shadowStrength * 2 = 2 * s.shadowStrength
  ring

/-- **C5.** `drawBackground` with an image source scales it by
`max(canvasWidth / imgWidth, canvasHeight / imgHeight)`, centers it, and
draws it under the `bgBlur` blur filter, ignoring `bgColor`; with no image
source it fills the surface with `bgColor` — a present image always takes
precedence over the color fill. -/
theorem C5_drawBackground_cover_and_precedence (s : RenderState) (url color : String)
    (imgWidth imgHeight : ℚ) :
    (drawBackground { s with bgImageUrl := some url } imgWidth imgHeight =
        BackgroundDraw.image
          ((canvasWidth - imgWidth * max (canvasWidth / imgWidth) (canvasHeight / imgHeight)) / 2)
          ((canvasHeight - imgHeight * max (canvasWidth / imgWidth) (canvasHeight / imgHeight)) / 2)
          (imgWidth * max (canvasWidth / imgWidth) (canvasHeight / imgHeight))
          (imgHeight * max (canvasWidth / imgWidth) (canvasHeight / imgHeight))
          s.bgBlur)
      ∧ drawBackground { s with bgImageUrl := some url, bgColor := color } imgWidth imgHeight
          = drawBackground { s with bgImageUrl := some url } imgWidth imgHeight
      ∧ drawBackground { s with bgImageUrl := none } imgWidth imgHeight
          = BackgroundDraw.fill s.bgColor := by
  exact ⟨rfl, rfl, rfl⟩

/-- **C7.** A 400×200 source image fitted into the 200×200 inner box
(`squareSize = 240`, so `240 - 2 * 20 = 200`) scales to 200×100 and is
vertically centered with 50-unit top and bottom margins; a 200×400 source
scales to 100×200 and is horizontally centered. -/
theorem C7_icon_aspect_fit_instances :
    drawSquareImageScale { initialState with squareSize := 240 } 400 200 =
        { scaledWidth := 200, scaledHeight := 100, offsetX := 0, offsetY := 50 }
      ∧ (240 - 2 * borderWidth)
          - (drawSquareImageScale { initialState with squareSize := 240 } 400 200).offsetY
          - (drawSquareImageScale { initialState with squareSize := 240 } 400 200).scaledHeight
          = 50
      ∧ drawSquareImageScale { initialState with squareSize := 240 } 200 400 =
        { scaledWidth := 100, scaledHeight := 200, offsetX := 50, offsetY := 0 } := by
  refine ⟨?_, ?_, ?_⟩ <;>
    · simp only [drawSquareImageScale, borderWidth]
      norm_num [IconPlacement.mk.injEq]

/-- **C3.** Calling `coverAPI.export` when the preview canvas is absent
yields the explicit error `'Canvas not found'`, which is never a success
value — a distinguishable failure, not a silent no-op or empty result. -/
theorem C3_export_missing_canvas (blobResult : Option Blob) (format : String) (quality : ℚ) :
    coverAPI_export none blobResult format quality = Except.error "Canvas not found"
      ∧ ∀ r : ExportResult, coverAPI_export none blobResult format quality ≠ Except.ok r := by
  refine ⟨rfl, ?_⟩
  intro r h
  simp [coverAPI_export] at h

/-- **C6.** `drawText` draws line `i` of the split title text at
`x = canvasWidth / 2` and
`y = (canvasHeight - lineHeight * lineCount) / 2 + lineHeight / 2 + i * lineHeight`
with `lineHeight = textSize * lineHeightMultiplier`; in particular for
`"A\nBB\nCCC"` with `textSize = 100` and multiplier `1`, the three
baselines sit at 150, 250, 350 — spaced exactly 100 apart, with the
300-unit block vertically centered in the 500-unit surface. -/
theorem C6_drawText_multiline_centering (s : RenderState) (i : ℕ) :
    ((drawText s)[i]? = ((splitLines s.text)[i]?).map (fun line =>
        { content := line
          x := canvasWidth / 2
          y := (canvasHeight - s.textSize * s.lineHeight * ((splitLines s.text).length : ℚ)) / 2
               + s.textSize * s.lineHeight / 2 + (i : ℚ) * (s.textSize * s.lineHeight) }))
      ∧ drawText { initialState with text := "A\nBB\nCCC", textSize := 100, lineHeight := 1 }
        = [{ content := "A", x := 500, y := 150 },
           { content := "BB", x := 500, y := 250 },
           { content := "CCC", x := 500, y := 350 }] := by
  constructor
  · cases h : (splitLines s.text)[i]? <;>
      simp [drawText, List.getElem?_map, List.getElem?_enum, h]
  · have hsplit : splitLines "A\nBB\nCCC" = ["A", "BB", "CCC"] := by decide
    simp only [drawText, hsplit]
    norm_num [List.enum, List.enumFrom, TextLine.mk.injEq, canvasWidth, canvasHeight]

/-- **C2, counterexample.** For a 400×200 source (aspect ratio 2 > 1) and
the 200×200 inner box (`squareSize = 240`), the claim predicts
fit-to-height (`scaledHeight` equal to the inner size 200) with horizontal
centering only (`offsetY = 0`); the code instead fits the width
(`scaledHeight = 100 ≠ 200`) and centers vertically (`offsetY = 50 ≠ 0`). -/
theorem C2_aspect_cases_counterexample :
    (drawSquareImageScale { initialState with squareSize := 240 } 400 200).scaledHeight
        ≠ 240 - 2 * borderWidth
      ∧ (drawSquareImageScale { initialState with squareSize := 240 } 400 200).offsetY ≠ 0 := by
  constructor <;>
    · simp only [drawSquareImageScale, borderWidth]
      norm_num

/-- **C2, amended.** In `drawSquareImage`, when the inner box is
non-degenerate (`squareSize > 2 * borderWidth`): if the image's aspect
ratio is greater than 1 it is fit to the square's **width** and centered
**vertically**, and otherwise it is fit to the square's **height** and
centered **horizontally** (the converse of the claim's case assignment),
then drawn centered inside the rounded-rect clip. -/
theorem C2_amended_aspect_fit (s : RenderState) (imgWidth imgHeight : ℚ)
    (hs : 2 * borderWidth < s.squareSize) :
    (1 < imgWidth / imgHeight →
      drawSquareImageScale s imgWidth imgHeight =
        { scaledWidth := s.squareSize - 2 * borderWidth
          scaledHeight := (s.squareSize - 2 * borderWidth) / (imgWidth / imgHeight)
          offsetX := 0
          offsetY := ((s.squareSize - 2 * borderWidth)
            - (s.squareSize - 2 * borderWidth) / (imgWidth / imgHeight)) / 2 })
      ∧ (imgWidth / imgHeight ≤ 1 →
        drawSquareImageScale s imgWidth imgHeight =
          { scaledWidth := (s.squareSize - 2 * borderWidth) * (imgWidth / imgHeight)
            scaledHeight := s.squareSize - 2 * borderWidth
            offsetX := ((s.squareSize - 2 * borderWidth)
              - (s.squareSize - 2 * borderWidth) * (imgWidth / imgHeight)) / 2
            offsetY := 0 }) := by
  have hsize : s.squareSize - 2 * borderWidth ≠ 0 := sub_ne_zero.mpr (ne_of_lt hs).symm
  have hcont : (s.squareSize - 2 * borderWidth) / (s.squareSize - 2 * borderWidth) = 1 :=
    div_self hsize
  constructor <;> intro ha
  · simp only [drawSquareImageScale, hcont, if_pos ha]
    simp [IconPlacement.mk.injEq, sub_self]
  · simp only [drawSquareImageScale, hcont, if_neg (not_lt.mpr ha)]
    simp [IconPlacement.mk.injEq, sub_self]

/-- Witness for the amended C2 at a concrete input: the 400×200 source in
the 240-unit icon box takes the fit-to-width branch. -/
theorem C2_amended_aspect_fit_witness :
    (2 * borderWidth < (240 : ℚ))
      ∧ drawSquareImageScale { initialState with squareSize := 240 } 400 200 =
        { scaledWidth := (240 : ℚ) - 2 * borderWidth
          scaledHeight := ((240 : ℚ) - 2 * borderWidth) / ((400 : ℚ) / 200)
          offsetX := 0
          offsetY := (((240 : ℚ) - 2 * borderWidth)
            - ((240 : ℚ) - 2 * borderWidth) / ((400 : ℚ) / 200)) / 2 } := by
  refine ⟨by norm_num [borderWidth], ?_⟩
  exact (C2_amended_aspect_fit { initialState with squareSize := 240 } 400 200
    (by norm_num [borderWidth])).1 (by norm_num)

/-- Filtering with a predicate that rejects some list member strictly
shortens the list. -/
theorem length_filter_lt_of_mem_not {α : Type} {p : α → Bool} {l : List α} {x : α}
    (hx : x ∈ l) (hpx : p x = false) : (l.filter p).length < l.length := by
  induction l with
  | nil => simp at hx
  | cons a tl ih =>
      rcases List.mem_cons.mp hx with rfl | hxtl
      · simp only [List.filter_cons, hpx]
        exact Nat.lt_succ_of_le (List.length_filter_le _ _)
      · cases hpa : p a <;> simp only [List.filter_cons, hpa, List.length_cons]
        · exact Nat.lt_succ_of_lt (ih hxtl)
        · exact Nat.succ_lt_succ (ih hxtl)

/-- **C4.** The LRU cache policy: (1) `set` keeps the cache within its
fixed capacity (for a positive capacity); (2) `get` on a present key
returns its value and promotes the key to the most-recent end; (3) `get`
on an absent key returns `none` and leaves the cache unchanged; (4)
`clear` empties the cache; (5) `set` of a fresh key at capacity evicts
exactly the oldest entry; (6) a key promoted by `get` is not the victim of
the next eviction (some other entry is evicted instead). -/
theorem C4_lru_cache_policy (κ α : Type) [DecidableEq κ]
    (c : LRUCache κ α) (k knew : κ) (v vnew : α) :
    (1 ≤ c.maxSize → c.cache.length ≤ c.maxSize →
        ((c.set knew vnew).cache.length ≤ c.maxSize))
      ∧ (c.cache.find? (fun p => p.1 = k) = some (k, v) →
          (c.get k).1 = some v
            ∧ (c.get k).2.cache = c.cache.filter (fun q => q.1 ≠ k) ++ [(k, v)])
      ∧ (c.cache.find? (fun p => p.1 = k) = none → c.get k = (none, c))
      ∧ c.clear.cache = []
      ∧ (∀ k0 v0 rest, c.cache = (k0, v0) :: rest →
          c.cache.all (fun p => p.1 ≠ knew) →
          c.maxSize ≤ c.cache.length →
          (c.set knew vnew).cache = rest ++ [(knew, vnew)])
      ∧ (c.cache.find? (fun p => p.1 = k) = some (k, v) →
          c.cache.filter (fun q => q.1 ≠ k) ≠ [] →
          (c.get k).2.cache.all (fun p => p.1 ≠ knew) →
          c.maxSize ≤ (c.get k).2.cache.length →
          ((c.get k).2.set knew vnew).cache.any (fun p => p.1 = k)) := by
  refine ⟨?_, ?_, ?_, rfl, ?_, ?_⟩
  · intro hmax hlen
    by_cases hp : c.cache.any (fun p => p.1 = knew) = true
    · have hset : (c.set knew vnew).cache
          = c.cache.filter (fun q => q.1 ≠ knew) ++ [(knew, vnew)] := by
        unfold LRUCache.set
        rw [hp]
        simp
      obtain ⟨x, hx, hxk⟩ : ∃ x ∈ c.cache, x.1 = knew := by simpa using hp
      have hflt : (c.cache.filter (fun q => q.1 ≠ knew)).length < c.cache.length :=
        length_filter_lt_of_mem_not hx (by simp [hxk])
      rw [hset]
      simp only [List.length_append, List.length_cons, List.length_nil]
      omega
    · have hp2 : c.cache.any (fun p => p.1 = knew) = false := by
        revert hp
        cases c.cache.any (fun p => p.1 = knew) <;> simp
      by_cases hfull : c.maxSize ≤ c.cache.length
      · cases hceq : c.cache with
        | nil =>
            rw [hceq] at hlen hfull
            have hset : (c.set knew vnew).cache = [(knew, vnew)] := by
              unfold LRUCache.set
              rw [hp2, hceq]
              rw [if_neg (by decide : ¬ (false = true))]
              rw [if_pos hfull]
            rw [hset]
            simpa using hmax
        | cons hd rest =>
            rw [hceq] at hfull
            have hset : (c.set knew vnew).cache = rest ++ [(knew, vnew)] := by
              unfold LRUCache.set
              rw [hp2, hceq]
              rw [if_neg (by decide : ¬ (false = true))]
              rw [if_pos hfull]
            have hlen2 : c.cache.length = rest.length + 1 := by rw [hceq]; simp
            rw [hset]
            simp only [List.length_append, List.length_cons, List.length_nil]
            omega
      · have hset : (c.set knew vnew).cache = c.cache ++ [(knew, vnew)] := by
          unfold LRUCache.set
          rw [hp2]
          simp [hfull]
        rw [hset]
        simp only [List.length_append, List.length_cons, List.length_nil]
        omega
  · intro hfind
    unfold LRUCache.get
    rw [hfind]
    exact ⟨rfl, rfl⟩
  · intro hfind
    unfold LRUCache.get
    rw [hfind]
  · intro k0 v0 rest hc hall hfull
    have hany : c.cache.any (fun p => p.1 = knew) = false := by
      simp only [List.any_eq_false]
      intro x hx
      simpa using List.all_eq_true.mp hall x hx
    rw [hc] at hany hfull
    unfold LRUCache.set
    rw [hc, hany]
    rw [if_neg (by decide : ¬ (false = true))]
    rw [if_pos hfull]
  · intro hfind hpre hall hfull
    have hget : (c.get k).2.cache = c.cache.filter (fun q => q.1 ≠ k) ++ [(k, v)] := by
      unfold LRUCache.get
      rw [hfind]
    have hmax2 : (c.get k).2.maxSize = c.maxSize := by
      unfold LRUCache.get
      rw [hfind]
    have hany : (c.get k).2.cache.any (fun p => p.1 = knew) = false := by
      simp only [List.any_eq_false]
      intro x hx
      simpa using List.all_eq_true.mp hall x hx
    obtain ⟨h0, pre, hpre2⟩ := List.exists_cons_of_ne_nil hpre
    have hc2cache : (c.get k).2.cache = h0 :: (pre ++ [(k, v)]) := by
      rw [hget, hpre2]
      simp
    rw [hc2cache] at hany hfull
    have hset : ((c.get k).2.set knew vnew).cache
        = (pre ++ [(k, v)]) ++ [(knew, vnew)] := by
      unfold LRUCache.set
      rw [hc2cache, hany, hmax2]
      rw [if_neg (by decide : ¬ (false = true))]
      rw [if_pos hfull]
    rw [hset]
    simp only [List.any_eq_true]
    exact ⟨(k, v), by simp, by simp⟩

/-- Witness for C4 on a concrete two-entry cache of capacity 2: inserting
a third key stays within capacity and evicts the oldest key; reading a
present key returns its value; reading an absent key changes nothing; a
key read just before an insertion at capacity survives the eviction. -/
theorem C4_lru_cache_policy_witness :
    ((⟨2, [("a", 1), ("b", 2)]⟩ : LRUCache String ℕ).set "c" 3).cache.length ≤ 2
      ∧ ((⟨2, [("a", 1), ("b", 2)]⟩ : LRUCache String ℕ).get "a").1 = some 1
      ∧ ((⟨2, [("a", 1), ("b", 2)]⟩ : LRUCache String ℕ).get "zz")
          = (none, ⟨2, [("a", 1), ("b", 2)]⟩)
      ∧ ((⟨2, [("a", 1), ("b", 2)]⟩ : LRUCache String ℕ).set "c" 3).cache
          = [("b", 2), ("c", 3)]
      ∧ ((((⟨2, [("a", 1), ("b", 2)]⟩ : LRUCache String ℕ).get "a").2.set "c" 3).cache.any
          (fun p => p.1 = "a")) := by
  have h := C4_lru_cache_policy String ℕ ⟨2, [("a", 1), ("b", 2)]⟩ "a" "c" 1 3
  have h2 := C4_lru_cache_policy String ℕ ⟨2, [("a", 1), ("b", 2)]⟩ "zz" "c" 1 3
  refine ⟨h.1 (by decide) (by decide), (h.2.1 (by decide)).1, h2.2.2.1 (by decide), ?_, ?_⟩
  · exact h.2.2.2.2.1 "a" 1 [("b", 2)] rfl (by decide) (by decide)
  · exact h.2.2.2.2.2 (by decide) (by decide) (by decide) (by decide)

/-- A single redraw writes only its own layer's canvas. -/
theorem redrawLayer_layerOf (render : Layer → Surface) (l ly : Layer) (c : LayerCanvases) :
    (redrawLayer render l c).layerOf ly = if ly = l then render l else c.layerOf ly := by
  cases l <;> cases ly <;> simp [redrawLayer, LayerCanvases.layerOf]

/-- Layers not in the issue order keep their canvas. -/
theorem applyRedraws_layerOf_of_not_mem (render : Layer → Surface) (ly : Layer) :
    ∀ (order : List Layer) (c : LayerCanvases), ly ∉ order →
      (applyRedraws render order c).layerOf ly = c.layerOf ly := by
  intro order
  induction order with
  | nil => intro c _; rfl
  | cons l rest ih =>
      intro c h
      have h1 : ly ≠ l := by intro he; exact h (by simp [he])
      have h2 : ly ∉ rest := by intro hm; exact h (by simp [hm])
      show (applyRedraws render rest (redrawLayer render l c)).layerOf ly = c.layerOf ly
      rw [ih _ h2, redrawLayer_layerOf]
      simp [h1]

/-- A layer in the issue order ends up with its rendered content,
regardless of where in the order it was issued. -/
theorem applyRedraws_layerOf_of_mem (render : Layer → Surface) (ly : Layer) :
    ∀ (order : List Layer) (c : LayerCanvases), ly ∈ order →
      (applyRedraws render order c).layerOf ly = render ly := by
  intro order
  induction order with
  | nil => intro c h; simp at h
  | cons l rest ih =>
      intro c h
      show (applyRedraws render rest (redrawLayer render l c)).layerOf ly = render ly
      by_cases hmem : ly ∈ rest
      · exact ih _ hmem
      · have hly : ly = l := by
          rcases List.mem_cons.mp h with h1 | h2
          · exact h1
          · exact absurd h2 hmem
        rw [applyRedraws_layerOf_of_not_mem render ly rest _ hmem, redrawLayer_layerOf]
        simp [hly]

/-- **C8.** `composeCanvases` is a no-op when the output context has not
been acquired; otherwise it clears the output and alpha-stacks the four
layer canvases in the fixed order Background, Text, Icon, Watermark; and
its output is a function of the four layer canvases alone, so issuing the
layer redraws in any (complete) order yields the same composite. -/
theorem C8_compose_fixed_order (l c1 c2 : LayerCanvases) (render : Layer → Surface)
    (order1 order2 : List Layer)
    (h1 : ∀ ly : Layer, ly ∈ order1) (h2 : ∀ ly : Layer, ly ∈ order2) :
    composeCanvases none l = none
      ∧ composeCanvases (some ()) l = some (specAlphaStack l)
      ∧ composeCanvases (some ()) (applyRedraws render order1 c1)
          = composeCanvases (some ()) (applyRedraws render order2 c2) := by
  have key : ∀ (order : List Layer) (c : LayerCanvases), (∀ ly : Layer, ly ∈ order) →
      applyRedraws render order c =
        { bgCanvas := render .background, textCanvas := render .text,
          squareCanvas := render .square, watermarkCanvas := render .watermark } := by
    intro order c hall
    calc applyRedraws render order c
        = { bgCanvas := (applyRedraws render order c).layerOf .background
            textCanvas := (applyRedraws render order c).layerOf .text
            squareCanvas := (applyRedraws render order c).layerOf .square
            watermarkCanvas := (applyRedraws render order c).layerOf .watermark } := rfl
      _ = { bgCanvas := render .background, textCanvas := render .text,
            squareCanvas := render .square, watermarkCanvas := render .watermark } := by
            rw [applyRedraws_layerOf_of_mem render .background order c (hall _),
              applyRedraws_layerOf_of_mem render .text order c (hall _),
              applyRedraws_layerOf_of_mem render .square order c (hall _),
              applyRedraws_layerOf_of_mem render .watermark order c (hall _)]
  refine ⟨rfl, rfl, ?_⟩
  rw [key order1 c1 h1, key order2 c2 h2]

/-- Witness for C8: the source's flush order (background, text, watermark,
square) and its reverse produce the same composite on concrete canvases. -/
theorem C8_compose_fixed_order_witness :
    composeCanvases (some ())
        (applyRedraws (fun _ => fun _ => Color.transparent)
          [Layer.background, Layer.text, Layer.watermark, Layer.square]
          ⟨fun _ => ⟨1, 0, 0, 1⟩, fun _ => ⟨0, 1, 0, 1⟩,
           fun _ => ⟨0, 0, 1, 1⟩, fun _ => ⟨1, 1, 1, 1⟩⟩)
      = composeCanvases (some ())
        (applyRedraws (fun _ => fun _ => Color.transparent)
          [Layer.square, Layer.watermark, Layer.text, Layer.background]
          ⟨fun _ => ⟨0, 0, 0, 0⟩, fun _ => ⟨0, 0, 0, 0⟩,
           fun _ => ⟨0, 0, 0, 0⟩, fun _ => ⟨0, 0, 0, 0⟩⟩) := by
  exact (C8_compose_fixed_order
    ⟨fun _ => ⟨0, 0, 0, 0⟩, fun _ => ⟨0, 0, 0, 0⟩,
     fun _ => ⟨0, 0, 0, 0⟩, fun _ => ⟨0, 0, 0, 0⟩⟩
    ⟨fun _ => ⟨1, 0, 0, 1⟩, fun _ => ⟨0, 1, 0, 1⟩,
     fun _ => ⟨0, 0, 1, 1⟩, fun _ => ⟨1, 1, 1, 1⟩⟩
    ⟨fun _ => ⟨0, 0, 0, 0⟩, fun _ => ⟨0, 0, 0, 0⟩,
     fun _ => ⟨0, 0, 0, 0⟩, fun _ => ⟨0, 0, 0, 0⟩⟩
    (fun _ => fun _ => Color.transparent)
    [Layer.background, Layer.text, Layer.watermark, Layer.square]
    [Layer.square, Layer.watermark, Layer.text, Layer.background]
    (by intro ly; cases ly <;> simp)
    (by intro ly; cases ly <;> simp)).2.2

/-- Flushing a queue of `n` same-kind `textColor` events: each loop
iteration runs `updateTextColor`, which itself calls `drawText()` (one
text redraw and one compositor pass), and marks the text flag. -/
theorem batch_foldl_replicate_textColor (n : ℕ) :
    ∀ (fl : RedrawFlags) (c : DrawCounts),
      (List.replicate n UpdateKind.textColor).foldl batchStep (fl, c)
        = ((if n = 0 then fl else { fl with text := true }),
           { c with text := c.text + n, compose := c.compose + n }) := by
  induction n with
  | zero => intro fl c; simp
  | succ m ih =>
      intro fl c
      obtain ⟨fb, ft, fw, fs⟩ := fl
      obtain ⟨cb, ct, cw, cs, cc⟩ := c
      rw [List.replicate_succ, List.foldl_cons]
      show (List.replicate m UpdateKind.textColor).foldl batchStep
          (⟨fb, true, fw, fs⟩, ⟨cb, ct + 1, cw, cs, cc + 1⟩) = _
      rw [ih]
      cases m <;> simp [Prod.ext_iff, DrawCounts.mk.injEq] <;> omega

/-- **C1 (refuting the coalescing guarantee).** A queue of `n + 1`
`textColor` events flushed by `processBatchUpdates` performs `n + 2`
redraws of the text layer and `n + 3` compositor passes — never exactly
one of each: the per-field updater invoked for every event inside the
flush loop itself calls `drawText()` (which ends with
`composeCanvases()`), on top of the single flag-driven batched redraw and
the final compositor call. -/
theorem C1_same_kind_events_not_coalesced (n : ℕ) :
    processBatchUpdates (List.replicate (n + 1) UpdateKind.textColor)
      = { background := 0, text := n + 2, watermark := 0, square := 0, compose := n + 3 } := by
  unfold processBatchUpdates
  rw [batch_foldl_replicate_textColor]
  simp [recordDraw, DrawCounts.mk.injEq]

end MiniCover
